import Mathlib

set_option autoImplicit false

namespace Curriculum

/-! Shallow embedding of the curriculum matrix repository.

Python dictionaries are modelled as insertion-ordered association lists
`List (String × α)` with the usual dict invariant (duplicate-free keys)
taken as a hypothesis where a theorem needs it. -/

/-- Python `d.get(k)` / `d[k]` on the association-list model of a dict:
the value of the first entry whose key is `k`. -/
def pyLookup {α : Type} (l : List (String × α)) (k : String) : Option α :=
  (l.find? (fun p => p.1 == k)).map (fun p => p.2)

/-- The keys of a Python dict, in insertion order (`d.keys()`, and the
domain of `k in d` membership tests). -/
def dictKeys {α : Type} (l : List (String × α)) : List String :=
  l.map (fun p => p.1)

/-- Python dict merge semantics, shared by `{**d, **e}` (upload_html_files),
`d.update(e)` (load_discipline_data, generate_all_disciplines) and `d | e`
(generate_index_page): keys of `d` keep their position but take the value
from `e` on collision; new keys of `e` are appended in order. -/
def pyDictMerge {α : Type} (d e : List (String × α)) : List (String × α) :=
  d.map (fun p =>
    match pyLookup e p.1 with
    | some v => (p.1, v)
    | none => p)
  ++ e.filter (fun p => (pyLookup d p.1).isNone)

/-! ### core/data_validator.py -/

/-- One value of the `mappings` dict in the structured dataset: the code
reads the two list fields with `mapping.get("competencies", [])` and
`mapping.get("program_results", [])`, so both are optional. -/
structure MappingEntry where
  competencies : Option (List String)
  programResults : Option (List String)
deriving DecidableEq, Repr

/-- The structured dataset as `validate_data` and
`generate_matrices_from_yaml` consume it: the four top-level dicts
(`disciplines`, `competencies`, `program_results`, `mappings`). -/
structure CurriculumConfig where
  disciplines : List (String × String)
  competencies : List (String × String)
  programResults : List (String × String)
  mappings : List (String × MappingEntry)
deriving DecidableEq, Repr

/-- The error messages `validate_data` appends to its `errors` list,
abstracted from their Ukrainian strings to constructors carrying the
same data. -/
inductive ValidationError where
  | missingSection (name : String)
  | unknownDiscipline (discCode : String)
  | unknownCompetency (compCode discCode : String)
  | unknownProgramResult (progCode discCode : String)
deriving DecidableEq, Repr

/-- The warnings `validate_data` appends: only the aggregated
unfilled-disciplines count (a Python int, hence `Int`). -/
inductive ValidationWarning where
  | unfilled (count : Int)
deriving DecidableEq, Repr

/-- The report `validate_data` produces: its `errors` and `warnings`
lists and the returned truth value `len(errors) == 0`. -/
structure ValidationReport where
  errors : List ValidationError
  warnings : List ValidationWarning
  valid : Bool
deriving DecidableEq, Repr

/-- The errors contributed by one `mappings` entry in the
`for disc_code, mapping in mappings.items()` loop of `validate_data`:
unknown-discipline check on the key, then per-code unknown-competency
and unknown-program-result checks. -/
def entryErrors (disciplines competencies programResults : List (String × String))
    (discCode : String) (m : MappingEntry) : List ValidationError :=
  (if discCode ∈ dictKeys disciplines then [] else [ValidationError.unknownDiscipline discCode])
  ++ ((m.competencies.getD []).filter (fun c => c ∉ dictKeys competencies)).map
      (fun c => ValidationError.unknownCompetency c discCode)
  ++ ((m.programResults.getD []).filter (fun p => p ∉ dictKeys programResults)).map
      (fun p => ValidationError.unknownProgramResult p discCode)

/-- `validate_data` from core/data_validator.py: section-presence errors,
referential-integrity errors per mapping entry, then the aggregated
unfilled warning computed as `len(disciplines) - len(mappings)`, gated
by `unfilled_count > 0`. -/
def validateData (cfg : CurriculumConfig) : ValidationReport :=
  let structErrors :=
    (if cfg.disciplines.isEmpty then [ValidationError.missingSection "disciplines"] else [])
    ++ (if cfg.competencies.isEmpty then [ValidationError.missingSection "competencies"] else [])
    ++ (if cfg.programResults.isEmpty then [ValidationError.missingSection "program_results"] else [])
  let mapErrors :=
    cfg.mappings.flatMap (fun p =>
      entryErrors cfg.disciplines cfg.competencies cfg.programResults p.1 p.2)
  let errors := structErrors ++ mapErrors
  let unfilledCount : Int := (cfg.disciplines.length : Int) - (cfg.mappings.length : Int)
  let warnings :=
    if 0 < unfilledCount then [ValidationWarning.unfilled unfilledCount] else []
  { errors := errors, warnings := warnings, valid := errors.isEmpty }

/-- The total unfilled count a report announces (0 when no unfilled
warning was emitted). -/
def unfilledWarningCount (r : ValidationReport) : Int :=
  (r.warnings.map (fun w => match w with | ValidationWarning.unfilled n => n)).sum

/-- Replacing an absent optional list field by an explicitly empty one,
the normal form `validate_data` reduces both to via `.get(..., [])`. -/
def canonEntry (m : MappingEntry) : MappingEntry :=
  { competencies := some (m.competencies.getD [])
    programResults := some (m.programResults.getD []) }

/-! ### matrix.py -/

/-- The set of competency-matrix cells `generate_matrices_from_yaml`
sets to "+": the fill loop skips mapping keys outside the discipline
catalog and codes outside the matrix row index. A cell (comp, disc) of
the data frame is marked present exactly when it occurs here. -/
def matrixMarksComp (disciplines competencies : List (String × String))
    (mappings : List (String × MappingEntry)) : List (String × String) :=
  mappings.flatMap (fun p =>
    if p.1 ∈ dictKeys disciplines then
      ((p.2.competencies.getD []).filter (fun c => c ∈ dictKeys competencies)).map
        (fun c => (c, p.1))
    else [])

/-- The program-result matrix cells set to "+", built the same way from
the `program_results` lists. -/
def matrixMarksProg (disciplines programResults : List (String × String))
    (mappings : List (String × MappingEntry)) : List (String × String) :=
  mappings.flatMap (fun p =>
    if p.1 ∈ dictKeys disciplines then
      ((p.2.programResults.getD []).filter (fun c => c ∈ dictKeys programResults)).map
        (fun c => (c, p.1))
    else [])

/-! ### create_discipline_page.py: catalog merging sites -/

/-- The merge in upload_html_files:
`all_disciplines = {**yaml_data['disciplines'], **yaml_data.get('elevative_disciplines', {})}`.
A fresh dict is built; both catalog objects are left as they were.
Returns (merged, discipline catalog afterwards, elective catalog afterwards). -/
def uploadMergeDisciplines {α : Type} (d e : List (String × α)) :
    List (String × α) × List (String × α) × List (String × α) :=
  (pyDictMerge d e, d, e)

/-- The merge in load_discipline_data (and generate_all_disciplines):
`all_disciplines = data["disciplines"]` followed by
`all_disciplines.update(data["elevative_disciplines"])`. The update
mutates the aliased discipline dict in place; the elective dict is only
read. Returns (merged, discipline catalog afterwards, elective catalog
afterwards). -/
def loadDataMergeDisciplines {α : Type} (d e : List (String × α)) :
    List (String × α) × List (String × α) × List (String × α) :=
  (pyDictMerge d e, pyDictMerge d e, e)

/-- The merge in generate_index_page:
`data.get("disciplines", {}) | data.get("elevative_disciplines", {})`.
A fresh dict is built; both catalog objects are left as they were. -/
def indexMergeDisciplines {α : Type} (d e : List (String × α)) :
    List (String × α) × List (String × α) × List (String × α) :=
  (pyDictMerge d e, d, e)

/-! ### core/wp_uploader.py and the remote CMS -/

/-- A remote page resource with the fields the protocol uses
(id, slug, parent, content, plus the title the callers always send). -/
structure WpPage where
  id : Nat
  slug : String
  content : String
  title : String
  parent : Nat
deriving DecidableEq, Repr

/-- Modelled from the spec: the remote CMS (an external collaborator,
not part of this repository) holds a collection of page resources and
assigns fresh numeric identifiers on create. -/
structure WpServer where
  pages : List WpPage
  nextId : Nat
deriving DecidableEq, Repr

/-- The optional `data` dict callers pass to update_wordpress_page
(title, slug, parent, status). -/
structure ExtraData where
  title : Option String := none
  slug : Option String := none
  parent : Option Nat := none
  status : Option String := none
deriving DecidableEq, Repr

/-- The request body: `post_data = {'content': ..., 'status': 'publish'}`
then `post_data.update(data)`. -/
structure PostData where
  content : String
  status : String
  title : Option String
  slug : Option String
  parent : Option Nat
deriving DecidableEq, Repr

/-- Builds post_data from the content and the optional extra data dict. -/
def buildPostData (content : String) (data : Option ExtraData) : PostData :=
  match data with
  | none =>
      { content := content, status := "publish", title := none, slug := none, parent := none }
  | some d =>
      { content := content
        status := d.status.getD "publish"
        title := d.title
        slug := d.slug
        parent := d.parent }

/-- Modelled from the spec: the `link` field the CMS returns in a
successful create/update response body, derived from the page slug. -/
def pageLink (p : WpPage) : String :=
  "https://apd.ipt.kpi.ua/" ++ p.slug

/-- Modelled from the spec: lookup by slug via a filtered list query
(`GET pages?slug=...`), returning the matching pages. -/
def wpQueryBySlug (srv : WpServer) (s : String) : List WpPage :=
  srv.pages.filter (fun p => p.slug == s)

/-- Modelled from the spec: how an update request rewrites the fields of
a page resource from the request body. -/
def applyPostData (p : WpPage) (pd : PostData) : WpPage :=
  { p with
    content := pd.content
    title := pd.title.getD p.title
    slug := pd.slug.getD p.slug
    parent := pd.parent.getD p.parent }

/-- Modelled from the spec: update via POST to the resource's own
endpoint; success = 200 with the body's `link` when the id exists,
a non-200 status otherwise. Returns (state, status code, link). -/
def wpUpdateById (srv : WpServer) (pid : Nat) (pd : PostData) :
    WpServer × Nat × Option String :=
  if (srv.pages.filter (fun p => p.id == pid)).isEmpty then
    (srv, 404, none)
  else
    let pages := srv.pages.map (fun p => if p.id == pid then applyPostData p pd else p)
    let link := (pages.find? (fun p => p.id == pid)).map pageLink
    ({ srv with pages := pages }, 200, link)

/-- Modelled from the spec: create via POST to the collection endpoint;
success = 201 with the body's `link`. The created page's slug is the
request's slug, falling back to a server-derived slug from the title
(modelled as the title itself; every caller in scope sends an explicit
slug). Returns (state, status code, link). -/
def wpCreate (srv : WpServer) (pd : PostData) : WpServer × Nat × Option String :=
  let pg : WpPage :=
    { id := srv.nextId
      slug := pd.slug.getD (pd.title.getD "")
      content := pd.content
      title := pd.title.getD ""
      parent := pd.parent.getD 0 }
  ({ pages := srv.pages ++ [pg], nextId := srv.nextId + 1 }, 201, some (pageLink pg))

/-- Terminal status of one update_wordpress_page call, tagging which
branch produced the returned message. -/
inductive PubStatus where
  | created
  | updated
  | failed
deriving DecidableEq, Repr

/-- The remote requests a call issues, in order. -/
inductive WpRequest where
  | updateById (pid : Nat)
  | queryBySlug (slug : String)
  | create
deriving DecidableEq, Repr

/-- Result of one update_wordpress_page call: the new remote state, the
Python return triple (success, link, message), the branch status and the
issued requests. -/
structure WpCallResult where
  server : WpServer
  success : Bool
  link : Option String
  message : String
  status : PubStatus
  requests : List WpRequest
deriving DecidableEq, Repr

/-- Python truthiness of the optional numeric page_id argument. -/
def truthyNat : Option Nat → Bool
  | some n => n != 0
  | none => false

/-- Python truthiness of the optional slug argument. -/
def truthyStr : Option String → Bool
  | some s => s != ""
  | none => false

/-- update_wordpress_page from core/wp_uploader.py: with a truthy
page_id update directly; otherwise with a truthy slug query by slug and
update the first hit or create on an empty hit list; otherwise fail with
"need page_id or slug". Messages are abbreviated tags for the script's
console strings. -/
def updateWordpressPage (srv : WpServer) (content : String)
    (pageId : Option Nat) (slug : Option String) (data : Option ExtraData) :
    WpCallResult :=
  let postData := buildPostData content data
  if truthyNat pageId then
    let pid := pageId.getD 0
    let r := wpUpdateById srv pid postData
    if r.2.1 == 200 then
      { server := r.1, success := true, link := r.2.2, message := "updated_by_id"
        status := PubStatus.updated, requests := [WpRequest.updateById pid] }
    else
      { server := r.1, success := false, link := none, message := "update_error"
        status := PubStatus.failed, requests := [WpRequest.updateById pid] }
  else if truthyStr slug then
    let s := slug.getD ""
    let existing := wpQueryBySlug srv s
    match existing.head? with
    | some pg =>
        let r := wpUpdateById srv pg.id postData
        if r.2.1 == 200 then
          { server := r.1, success := true, link := r.2.2, message := "updated_existing"
            status := PubStatus.updated
            requests := [WpRequest.queryBySlug s, WpRequest.updateById pg.id] }
        else
          { server := r.1, success := false, link := none, message := "update_error"
            status := PubStatus.failed
            requests := [WpRequest.queryBySlug s, WpRequest.updateById pg.id] }
    | none =>
        let r := wpCreate srv postData
        if r.2.1 == 201 then
          { server := r.1, success := true, link := r.2.2, message := "created"
            status := PubStatus.created
            requests := [WpRequest.queryBySlug s, WpRequest.create] }
        else
          { server := r.1, success := false, link := none, message := "create_error"
            status := PubStatus.failed
            requests := [WpRequest.queryBySlug s, WpRequest.create] }
  else
    { server := srv, success := false, link := none, message := "need_id_or_slug"
      status := PubStatus.failed, requests := [] }

/-- The extra data dict upload_html_files passes: title, slug, parent
and the publish status flag. -/
def publishExtra (title slug : String) (parent : Nat) : ExtraData :=
  { title := some title, slug := some slug, parent := some parent, status := some "publish" }

/-- The publish call upload_html_files issues for one discipline page:
no pinned id, slug resolution, extra data carrying title, slug, parent
and the publish status flag. -/
def publishDiscipline (srv : WpServer) (content title slug : String) (parent : Nat) :
    WpCallResult :=
  updateWordpressPage srv content none (some slug) (some (publishExtra title slug parent))

/-- The number of remote pages carrying a slug. -/
def countSlug (srv : WpServer) (s : String) : Nat :=
  (wpQueryBySlug srv s).length

/-! ### the link registry (save_wp_links_yaml / parse_index_links load) -/

/-- The wp_links YAML document `{year, degree, links}`; the loader reads
every field back with a `.get` default, so each is optional. -/
structure WpLinksDoc where
  year : Option String
  degree : Option String
  links : Option (List (String × String))
deriving DecidableEq, Repr

/-- The document upload_html_files assembles for save_wp_links_yaml. -/
def mkWpLinksDoc (year degree : String) (links : List (String × String)) : WpLinksDoc :=
  { year := some year, degree := some degree, links := some links }

/-- The wp_links files on disk, keyed by path. -/
abbrev RegistryStore := List (String × WpLinksDoc)

/-- save_wp_links_yaml: opens the keyed file with mode "w" and dumps the
whole document, i.e. a full overwrite of whatever the path held. -/
def saveWpLinksYaml (store : RegistryStore) (path : String) (doc : WpLinksDoc) :
    RegistryStore :=
  (path, doc) :: store.filter (fun p => p.1 != path)

/-- The loading half of parse_index_links: read the keyed file, extract
`links` with `.get("links", {})` and the identity fields with
`.get("year", "")` / `.get("degree", "")`. -/
def loadWpLinks (store : RegistryStore) (path : String) :
    Option (List (String × String) × String × String) :=
  (pyLookup store path).map (fun w => (w.links.getD [], w.year.getD "", w.degree.getD ""))

/-! ### index_parser/index_parse.py -/

/-- The alternation (ЗО|ПО|ПВ|НК|ВК) of the href pattern. -/
def validCatPair (a b : Char) : Bool :=
  (a == 'З' && b == 'О') || (a == 'П' && b == 'О') || (a == 'П' && b == 'В')
    || (a == 'Н' && b == 'К') || (a == 'В' && b == 'К')

/-- The closing literal of the pattern after group 1. -/
def matchClose : List Char → Option (List Char)
  | '.' :: 'h' :: 't' :: 'm' :: 'l' :: '"' :: rest => some rest
  | _ => none

/-- The optional greedy decimal suffix of the pattern followed by the
closing literal; on success returns the consumed suffix characters and
the rest. -/
def matchFracClose (cs : List Char) : Option (List Char × List Char) :=
  match cs with
  | '.' :: rest =>
      let ds := rest.takeWhile Char.isDigit
      let rest2 := rest.dropWhile Char.isDigit
      if ds.isEmpty then none
      else
        match matchClose rest2 with
        | some r => some ('.' :: ds, r)
        | none => none
  | _ => none

/-- One attempt of the compiled pattern at the head of the character
list: the literal, a category pair, a space-or-underscore separator, two
digits, the optional decimal suffix, the closing literal. On success
returns the captured group 1 and the characters after the whole match. -/
def matchHrefAt (cs : List Char) : Option (List Char × List Char) :=
  match cs with
  | 'h' :: 'r' :: 'e' :: 'f' :: '=' :: '"' :: a :: b :: sep :: d1 :: d2 :: rest =>
      if validCatPair a b && (sep == ' ' || sep == '_') && d1.isDigit && d2.isDigit then
        match matchFracClose rest with
        | some (frac, r) => some ([a, b, sep, d1, d2] ++ frac, r)
        | none =>
            match matchClose rest with
            | some r => some ([a, b, sep, d1, d2], r)
            | none => none
      else none
  | _ => none

/-- The normalization inside replace_href:
`match.group(1).replace('_', ' ').strip()` — every underscore becomes a
space (the pattern is a single character, so a character map is exact),
then surrounding whitespace is stripped. -/
def normalizeCode (code : List Char) : String :=
  let repl := code.map (fun c => if c = '_' then ' ' else c)
  String.mk (((repl.dropWhile Char.isWhitespace).reverse.dropWhile Char.isWhitespace).reverse)

/-- replace_href: normalize the captured code, look it up in the links
dict with default "#", and rebuild the href attribute. -/
def replaceHref (links : List (String × String)) (code : List Char) : List Char :=
  let url := (pyLookup links (normalizeCode code)).getD "#"
  ('h' :: 'r' :: 'e' :: 'f' :: '=' :: '"' :: url.data) ++ ['"']

/-- The left-to-right scan of pattern.sub: at each position try the
pattern, emit the replacement and continue after the match, else copy
one character. Fuel-indexed; fuel = text length suffices because every
match consumes at least one character. -/
def subHrefsAux (links : List (String × String)) : Nat → List Char → List Char
  | 0, cs => cs
  | _ + 1, [] => []
  | fuel + 1, c :: rest =>
      match matchHrefAt (c :: rest) with
      | some (code, after) => replaceHref links code ++ subHrefsAux links fuel after
      | none => c :: subHrefsAux links fuel rest

/-- `pattern.sub(replace_href, html)`. -/
def subHrefs (links : List (String × String)) (html : String) : String :=
  String.mk (subHrefsAux links html.data.length html.data)

/-- The metadata block of the main data YAML, as parse_index_links reads
it: `meta_data.get("metadata", {}).get("year", "")` and likewise for the
degree, so every level is optional. -/
structure MetaBlock where
  year : Option String
  degree : Option String
deriving DecidableEq, Repr

/-- The parsed main data YAML (only its metadata block is read here). -/
structure MetaDoc where
  metadata : Option MetaBlock
deriving DecidableEq, Repr

/-- The slice of the file system parse_index_links touches: the index
document, the derived wp_links registry file and the main data YAML,
each already parsed, `none` meaning the file is absent. -/
structure IndexFs where
  indexContent : Option String
  wpLinksDoc : Option WpLinksDoc
  metaDoc : Option MetaDoc
deriving DecidableEq, Repr

/-- How a run of parse_index_links terminates: the early return on a
missing index file, the TypeError `Path(None)` raises when data_yaml is
None, the uncaught errors of the two reads, the identity-mismatch
abort, or the successful rewrite. -/
inductive ParseOutcome where
  | indexNotFound
  | nonePathError
  | registryReadError
  | metaReadError
  | identityMismatch (wpYear wpDegree year degree : String)
  | replaced
deriving DecidableEq, Repr

/-- parse_index_links from index_parser/index_parse.py, in source order:
index-existence check, registry path construction from `Path(data_yaml)`
(raising on None), registry load, the identity check guarded by the
truthiness of data_yaml, then the substitution and write-back. -/
def parseIndexLinks (fs : IndexFs) (dataYaml : Option String) : IndexFs × ParseOutcome :=
  match fs.indexContent with
  | none => (fs, ParseOutcome.indexNotFound)
  | some html =>
    match dataYaml with
    | none => (fs, ParseOutcome.nonePathError)
    | some path =>
      match fs.wpLinksDoc with
      | none => (fs, ParseOutcome.registryReadError)
      | some wp =>
        let wpLinks := wp.links.getD []
        let wpYear := wp.year.getD ""
        let wpDegree := wp.degree.getD ""
        if path ≠ "" then
          match fs.metaDoc with
          | none => (fs, ParseOutcome.metaReadError)
          | some md =>
            let year := (md.metadata.bind (fun b => b.year)).getD ""
            let degree := (md.metadata.bind (fun b => b.degree)).getD ""
            if wpYear ≠ year ∨ wpDegree ≠ degree then
              (fs, ParseOutcome.identityMismatch wpYear wpDegree year degree)
            else
              ({ fs with indexContent := some (subHrefs wpLinks html) },
               ParseOutcome.replaced)
        else
          ({ fs with indexContent := some (subHrefs wpLinks html) },
           ParseOutcome.replaced)

/-! ## Helper lemmas -/

theorem pyLookup_cons_eq {α : Type} (p : String × α) (l : List (String × α)) (k : String)
    (h : p.1 = k) : pyLookup (p :: l) k = some p.2 := by
  simp [pyLookup, List.find?_cons_of_pos, h]

theorem pyLookup_cons_ne {α : Type} (p : String × α) (l : List (String × α)) (k : String)
    (h : p.1 ≠ k) : pyLookup (p :: l) k = pyLookup l k := by
  simp [pyLookup, List.find?_cons_of_neg, h]

theorem pyLookup_mem_keys {α : Type} (e : List (String × α)) (k : String)
    (h : k ∈ dictKeys e) : ∃ v, pyLookup e k = some v := by
  induction e with
  | nil => simp [dictKeys] at h
  | cons p tl ih =>
      by_cases hk : p.1 = k
      · exact ⟨p.2, pyLookup_cons_eq p tl k hk⟩
      · have h1 : k ∈ dictKeys tl := by
          rcases List.mem_cons.mp h with h1 | h1
          · exact absurd h1.symm hk
          · exact h1
        obtain ⟨v, hv⟩ := ih h1
        exact ⟨v, by rw [pyLookup_cons_ne p tl k hk, hv]⟩

theorem mem_dictKeys_of_mem {α : Type} {l : List (String × α)} {p : String × α}
    (h : p ∈ l) : p.1 ∈ dictKeys l :=
  List.mem_map_of_mem (fun q => q.1) h

theorem pyLookup_eq_some_iff {α : Type} (l : List (String × α)) (k : String) (v : α)
    (h : (dictKeys l).Nodup) : pyLookup l k = some v ↔ (k, v) ∈ l := by
  induction l with
  | nil => simp [pyLookup]
  | cons p tl ih =>
      have hcons : dictKeys (p :: tl) = p.1 :: dictKeys tl := rfl
      rw [hcons, List.nodup_cons] at h
      obtain ⟨hnotin, hnd⟩ := h
      by_cases hk : p.1 = k
      · rw [pyLookup_cons_eq p tl k hk]
        constructor
        · intro h2
          have hv : v = p.2 := (Option.some_injective _ h2).symm
          subst hv
          subst hk
          exact List.mem_cons_self _ _
        · intro h2
          rcases List.mem_cons.mp h2 with h3 | h3
          · rw [← h3]
          · exact absurd (hk ▸ mem_dictKeys_of_mem h3) hnotin
      · rw [pyLookup_cons_ne p tl k hk, ih hnd]
        constructor
        · exact List.mem_cons_of_mem _
        · intro h2
          rcases List.mem_cons.mp h2 with h3 | h3
          · exact absurd (congrArg Prod.fst h3).symm hk
          · exact h3

theorem pyLookup_append_left {α : Type} (l1 l2 : List (String × α)) (k : String)
    (h : k ∈ dictKeys l1) : pyLookup (l1 ++ l2) k = pyLookup l1 k := by
  induction l1 with
  | nil => simp [dictKeys] at h
  | cons p t ih =>
      by_cases hk : p.1 = k
      · rw [List.cons_append, pyLookup_cons_eq _ _ _ hk, pyLookup_cons_eq _ _ _ hk]
      · have h1 : k ∈ dictKeys t := by
          rcases List.mem_cons.mp h with h1 | h1
          · exact absurd h1.symm hk
          · exact h1
        rw [List.cons_append, pyLookup_cons_ne _ _ _ hk, pyLookup_cons_ne _ _ _ hk, ih h1]

theorem dictKeys_map_preserve {α : Type} (d : List (String × α))
    (f : String × α → String × α) (h : ∀ p, (f p).1 = p.1) :
    dictKeys (d.map f) = dictKeys d := by
  induction d with
  | nil => rfl
  | cons p t ih =>
      show (f p).1 :: dictKeys (t.map f) = p.1 :: dictKeys t
      rw [h p, ih]

theorem pyLookup_mapMerge {α : Type} (d e : List (String × α)) (k : String) (v : α)
    (hk : k ∈ dictKeys d) (hv : pyLookup e k = some v) :
    pyLookup (d.map (fun p =>
      match pyLookup e p.1 with
      | some w => (p.1, w)
      | none => p)) k = some v := by
  induction d with
  | nil => simp [dictKeys] at hk
  | cons p t ih =>
      rw [List.map_cons]
      by_cases hpk : p.1 = k
      · subst hpk
        rw [hv]
        exact pyLookup_cons_eq _ _ _ rfl
      · have hhead : (match pyLookup e p.1 with
            | some w => (p.1, w)
            | none => p).1 = p.1 := by
          cases pyLookup e p.1 <;> rfl
        rw [pyLookup_cons_ne _ _ _ (by rw [hhead]; exact hpk)]
        have h1 : k ∈ dictKeys t := by
          rcases List.mem_cons.mp hk with h1 | h1
          · exact absurd h1.symm hpk
          · exact h1
        exact ih h1

theorem find?_append_left_none {α : Type} (l1 l2 : List α) (p : α → Bool)
    (h : ∀ a ∈ l1, p a = false) : (l1 ++ l2).find? p = l2.find? p := by
  induction l1 with
  | nil => rfl
  | cons a t ih =>
      have ha := h a (List.mem_cons_self a t)
      rw [List.cons_append, List.find?_cons_of_neg _ (by simp [ha]),
        ih (fun b hb => h b (List.mem_cons_of_mem a hb))]

theorem map_fixed_of_false {α : Type} (l : List α) (f : α → α)
    (h : ∀ a ∈ l, f a = a) : l.map f = l := by
  induction l with
  | nil => rfl
  | cons a t ih =>
      rw [List.map_cons, h a (List.mem_cons_self a t),
        ih (fun b hb => h b (List.mem_cons_of_mem a hb))]

/-! ## Claim theorems -/

/-- Claim C7: recording the registry (a full overwrite of the keyed
file) and then looking it up returns exactly the recorded entries with
the recorded identity, regardless of what any prior run left at that
path. -/
theorem registry_round_trip (store : RegistryStore) (path year degree : String)
    (entries : List (String × String)) :
    loadWpLinks (saveWpLinksYaml store path (mkWpLinksDoc year degree entries)) path
      = some (entries, year, degree) := by
  simp [loadWpLinks, saveWpLinksYaml, mkWpLinksDoc, pyLookup]

/-- Claim C9: whenever the index file exists and data_yaml is None (its
declared default), parse_index_links raises while building the registry
path from Path(None) — before reading the registry or the document — so
the file system is untouched and the rewrite never happens. -/
theorem parse_none_path_raises (fs : IndexFs) (h : fs.indexContent ≠ none) :
    parseIndexLinks fs none = (fs, ParseOutcome.nonePathError) := by
  obtain ⟨html, hh⟩ := Option.ne_none_iff_exists'.mp h
  simp [parseIndexLinks, hh]

/-- Witness for C9 at a concrete file system. -/
theorem parse_none_path_raises_witness :
    parseIndexLinks
        { indexContent := some "<a href=\"ЗО_01.html\">x</a>", wpLinksDoc := none
          metaDoc := none } none
      = ({ indexContent := some "<a href=\"ЗО_01.html\">x</a>", wpLinksDoc := none
           metaDoc := none }, ParseOutcome.nonePathError) :=
  parse_none_path_raises _ (by simp)

/-- Claim C2: when the registry's stored (year, degree) differs from the
(year, degree) in the target dataset's metadata, parse_index_links
performs zero substitutions, leaves every file byte-identical, and
reports the mismatch. -/
theorem rewrite_identity_guard (fs : IndexFs) (path html : String)
    (wp : WpLinksDoc) (md : MetaDoc)
    (hidx : fs.indexContent = some html)
    (hwp : fs.wpLinksDoc = some wp)
    (hmd : fs.metaDoc = some md)
    (hpath : path ≠ "")
    (hmis : wp.year.getD "" ≠ (md.metadata.bind (fun b => b.year)).getD ""
        ∨ wp.degree.getD "" ≠ (md.metadata.bind (fun b => b.degree)).getD "") :
    parseIndexLinks fs (some path)
      = (fs, ParseOutcome.identityMismatch (wp.year.getD "") (wp.degree.getD "")
          ((md.metadata.bind (fun b => b.year)).getD "")
          ((md.metadata.bind (fun b => b.degree)).getD "")) := by
  simp only [parseIndexLinks, hidx, hwp, hmd]
  rw [if_pos hpath, if_pos hmis]

/-- Witness for C2: a registry recorded under (2024, Bachelor) against a
dataset whose metadata says (2023, Bachelor). -/
theorem rewrite_identity_guard_witness :
    parseIndexLinks
        { indexContent := some "<a href=\"ЗО_01.html\">x</a>"
          wpLinksDoc := some (mkWpLinksDoc "2024" "Bachelor" [("ЗО 01", "https://site/a01")])
          metaDoc := some { metadata := some { year := some "2023", degree := some "Bachelor" } } }
        (some "data/bachelor_2023.yaml")
      = ({ indexContent := some "<a href=\"ЗО_01.html\">x</a>"
           wpLinksDoc := some (mkWpLinksDoc "2024" "Bachelor" [("ЗО 01", "https://site/a01")])
           metaDoc := some { metadata := some { year := some "2023", degree := some "Bachelor" } } },
         ParseOutcome.identityMismatch "2024" "Bachelor" "2023" "Bachelor") :=
  rewrite_identity_guard _ "data/bachelor_2023.yaml" "<a href=\"ЗО_01.html\">x</a>"
    (mkWpLinksDoc "2024" "Bachelor" [("ЗО 01", "https://site/a01")])
    { metadata := some { year := some "2023", degree := some "Bachelor" } }
    rfl rfl rfl (by decide) (by decide)

/-- The index file system of the C5 scenario: one registered href and
one unregistered href under a matching identity. -/
def substitutionFs : IndexFs :=
  { indexContent := some "<ul><a href=\"ЗО_01.html\">x</a><a href=\"ЗО_99.html\">y</a></ul>"
    wpLinksDoc := some (mkWpLinksDoc "2024" "Bachelor" [("ЗО 01", "https://site/a01")])
    metaDoc := some { metadata := some { year := some "2024", degree := some "Bachelor" } } }

/-- Claim C5: under matching identity an href in the discipline-code
file-naming convention whose normalized code is registered is rewritten
to the registry URL, and one whose normalized code is unregistered is
rewritten to "#" (the category prefix instantiated from the code's
supported set). -/
theorem rewrite_substitution :
    parseIndexLinks substitutionFs (some "data/bachelor_2024.yaml")
      = ({ substitutionFs with
            indexContent :=
              some "<ul><a href=\"https://site/a01\">x</a><a href=\"#\">y</a></ul>" },
         ParseOutcome.replaced) := by
  decide

/-- Counterexample for C4 as stated: at the upload_html_files merge of
a discipline catalog and an elective catalog sharing the key "K", the
merged catalog keeps the elective entry, not the primary one. -/
theorem merge_primary_wins_false :
    ¬ pyLookup (uploadMergeDisciplines [("K", "primary")] [("K", "elective")]).1 "K"
        = some "primary" := by
  decide

/-- Claim C4 (amended): at all three merge sites the original elective
catalog object is left unchanged, and for every code present in both
catalogs the elective catalog's entry — not the primary one — is kept. -/
theorem merge_elective_intact_elective_wins {α : Type} (d e : List (String × α)) :
    (uploadMergeDisciplines d e).2.2 = e
    ∧ (loadDataMergeDisciplines d e).2.2 = e
    ∧ (indexMergeDisciplines d e).2.2 = e
    ∧ ∀ k, k ∈ dictKeys d → k ∈ dictKeys e →
        pyLookup (pyDictMerge d e) k = pyLookup e k := by
  refine ⟨rfl, rfl, rfl, ?_⟩
  intro k hkd hke
  obtain ⟨v, hv⟩ := pyLookup_mem_keys e k hke
  have hkeys : k ∈ dictKeys (d.map (fun p =>
      match pyLookup e p.1 with
      | some w => (p.1, w)
      | none => p)) := by
    rw [dictKeys_map_preserve d _ (fun p => by cases hq : pyLookup e p.1 <;> simp [hq])]
    exact hkd
  rw [pyDictMerge, pyLookup_append_left _ _ _ hkeys, pyLookup_mapMerge d e k v hkd hv, hv]

/-- Witness for C4 (amended) at concrete catalogs with a collision. -/
theorem merge_elective_intact_elective_wins_witness :
    (uploadMergeDisciplines [("K", "primary")] [("K", "elective")]).2.2 = [("K", "elective")]
    ∧ pyLookup (pyDictMerge [("K", "primary")] [("K", "elective")]) "K"
        = pyLookup [("K", "elective")] "K" :=
  ⟨(merge_elective_intact_elective_wins [("K", "primary")] [("K", "elective")]).1,
   (merge_elective_intact_elective_wins [("K", "primary")] [("K", "elective")]).2.2.2
     "K" (by decide) (by decide)⟩

/-- A dataset whose only mapping key is an unknown discipline: the
catalog discipline D1 never appears as a mapping key. -/
def maskedConfig : CurriculumConfig :=
  { disciplines := [("D1", "d")]
    competencies := [("C1", "c")]
    programResults := [("P1", "p")]
    mappings := [("X", { competencies := some [], programResults := some [] })] }

/-- Counterexample for C3 as stated: with one catalog discipline that
never appears as a mapping key and one mapping keyed by an unknown
discipline, the reported unfilled count is 0 (no warning at all), not
1. -/
theorem unfilled_count_claim_false :
    ¬ unfilledWarningCount (validateData maskedConfig)
        = (((dictKeys maskedConfig.disciplines).filter
            (fun code => code ∉ dictKeys maskedConfig.mappings)).length : Int) := by
  decide

/-- Claim C3 (amended): provided every mapping key is a known catalog
discipline (and the dicts have duplicate-free keys, as Python dicts do),
each catalog discipline that never appears as a mapping key increases
the aggregated unfilled count by exactly one: the reported count equals
the number of unmapped catalog disciplines. -/
theorem unfilled_count_eq_unmapped (cfg : CurriculumConfig)
    (hsub : ∀ k ∈ dictKeys cfg.mappings, k ∈ dictKeys cfg.disciplines)
    (hm : (dictKeys cfg.mappings).Nodup)
    (hd : (dictKeys cfg.disciplines).Nodup) :
    unfilledWarningCount (validateData cfg)
      = (((dictKeys cfg.disciplines).filter
          (fun code => code ∉ dictKeys cfg.mappings)).length : Int) := by
  classical
  have hsubF : (dictKeys cfg.mappings).toFinset ⊆ (dictKeys cfg.disciplines).toFinset := by
    intro x hx
    rw [List.mem_toFinset] at hx ⊢
    exact hsub x hx
  have hfin : ((dictKeys cfg.disciplines).filter
        (fun code => code ∉ dictKeys cfg.mappings)).toFinset
      = (dictKeys cfg.disciplines).toFinset \ (dictKeys cfg.mappings).toFinset := by
    ext x
    simp [List.mem_filter]
  have hndf : ((dictKeys cfg.disciplines).filter
      (fun code => code ∉ dictKeys cfg.mappings)).Nodup := hd.filter _
  have hflen : ((dictKeys cfg.disciplines).filter
        (fun code => code ∉ dictKeys cfg.mappings)).length
      = (dictKeys cfg.disciplines).length - (dictKeys cfg.mappings).length := by
    rw [← List.toFinset_card_of_nodup hndf, hfin, Finset.card_sdiff hsubF,
      List.toFinset_card_of_nodup hd, List.toFinset_card_of_nodup hm]
  have hle : (dictKeys cfg.mappings).length ≤ (dictKeys cfg.disciplines).length := by
    rw [← List.toFinset_card_of_nodup hm, ← List.toFinset_card_of_nodup hd]
    exact Finset.card_le_card hsubF
  have hlenD : (dictKeys cfg.disciplines).length = cfg.disciplines.length := by
    simp [dictKeys]
  have hlenM : (dictKeys cfg.mappings).length = cfg.mappings.length := by
    simp [dictKeys]
  rw [hflen, hlenD, hlenM]
  rw [hlenD, hlenM] at hle
  simp only [validateData, unfilledWarningCount]
  split
  · simp only [List.map_cons, List.map_nil, List.sum_cons, List.sum_nil]
    omega
  · simp only [List.map_nil, List.sum_nil]
    omega

/-- A well-formed two-discipline dataset with one unmapped discipline. -/
def twoDiscConfig : CurriculumConfig :=
  { disciplines := [("A01", "a"), ("A02", "b")]
    competencies := [("C1", "c")]
    programResults := [("P1", "p")]
    mappings := [("A01", { competencies := some ["C1"], programResults := some [] })] }

/-- Witness for C3 (amended) at a concrete dataset: one unmapped
discipline, reported count 1. -/
theorem unfilled_count_eq_unmapped_witness :
    unfilledWarningCount (validateData twoDiscConfig)
      = (((dictKeys twoDiscConfig.disciplines).filter
          (fun code => code ∉ dictKeys twoDiscConfig.mappings)).length : Int) :=
  unfilled_count_eq_unmapped twoDiscConfig (by decide) (by decide) (by decide)

/-- Claim C10: a mapping entry whose optional code lists are absent is
validated exactly as if they were explicitly empty — the whole report
(errors, warnings and verdict) is unchanged by the normalization, so
the entry contributes no unknown-code errors and the verdict is
unaffected. -/
theorem validate_missing_lists_as_empty (D C P : List (String × String))
    (pre post : List (String × MappingEntry)) (dc : String) (m : MappingEntry) :
    validateData ⟨D, C, P, pre ++ (dc, m) :: post⟩
      = validateData ⟨D, C, P, pre ++ (dc, canonEntry m) :: post⟩ := by
  simp [validateData, entryErrors, canonEntry]

theorem mem_marks_iff (D Cat : List (String × String)) (M : List (String × MappingEntry))
    (sel : MappingEntry → Option (List String)) (code disc : String)
    (hnd : (dictKeys M).Nodup) (hdisc : disc ∈ dictKeys D) (hcode : code ∈ dictKeys Cat) :
    ((code, disc) ∈ M.flatMap (fun p =>
        if p.1 ∈ dictKeys D then
          (((sel p.2).getD []).filter (fun c => c ∈ dictKeys Cat)).map (fun c => (c, p.1))
        else []))
      ↔ ∃ m, pyLookup M disc = some m ∧ code ∈ (sel m).getD [] := by
  rw [List.mem_flatMap]
  constructor
  · rintro ⟨p, hpM, hin⟩
    by_cases hd2 : p.1 ∈ dictKeys D
    · rw [if_pos hd2, List.mem_map] at hin
      obtain ⟨c, hc, heq⟩ := hin
      have h1 : c = code := congrArg Prod.fst heq
      have h2 : p.1 = disc := congrArg Prod.snd heq
      obtain ⟨hc1, _⟩ := List.mem_filter.mp hc
      refine ⟨p.2, ?_, h1 ▸ hc1⟩
      rw [pyLookup_eq_some_iff M disc p.2 hnd, ← h2]
      exact hpM
    · rw [if_neg hd2] at hin
      simp at hin
  · rintro ⟨m, hm, hcode2⟩
    have hmem : (disc, m) ∈ M := (pyLookup_eq_some_iff M disc m hnd).mp hm
    refine ⟨(disc, m), hmem, ?_⟩
    rw [if_pos hdisc, List.mem_map]
    exact ⟨code, List.mem_filter.mpr ⟨hcode2, by simpa using hcode⟩, rfl⟩

/-- Claim C6: for any cell inside the matrix domain (a catalog code and
a catalog discipline), the competency matrix (resp. program-result
matrix) marks the cell present if and only if the discipline's mapping
lists that code. -/
theorem matrix_cell_iff (D C P : List (String × String)) (M : List (String × MappingEntry))
    (comp prog disc : String)
    (hnd : (dictKeys M).Nodup)
    (hdisc : disc ∈ dictKeys D) (hcomp : comp ∈ dictKeys C) (hprog : prog ∈ dictKeys P) :
    ((comp, disc) ∈ matrixMarksComp D C M
      ↔ ∃ m, pyLookup M disc = some m ∧ comp ∈ m.competencies.getD [])
    ∧ ((prog, disc) ∈ matrixMarksProg D P M
      ↔ ∃ m, pyLookup M disc = some m ∧ prog ∈ m.programResults.getD []) :=
  ⟨mem_marks_iff D C M (fun m => m.competencies) comp disc hnd hdisc hcomp,
   mem_marks_iff D P M (fun m => m.programResults) prog disc hnd hdisc hprog⟩

/-- Witness for C6 at the spec scenario: disciplines A01 and A02,
competency C1, only A01 mapped to C1 — row C1 is marked under A01 and
not under A02. -/
theorem matrix_cell_iff_witness :
    ("C1", "A01") ∈ matrixMarksComp twoDiscConfig.disciplines twoDiscConfig.competencies
        twoDiscConfig.mappings
    ∧ ("C1", "A02") ∉ matrixMarksComp twoDiscConfig.disciplines twoDiscConfig.competencies
        twoDiscConfig.mappings := by
  constructor
  · exact ((matrix_cell_iff twoDiscConfig.disciplines twoDiscConfig.competencies
        twoDiscConfig.programResults twoDiscConfig.mappings "C1" "P1" "A01"
        (by decide) (by decide) (by decide) (by decide)).1).mpr
      ⟨{ competencies := some ["C1"], programResults := some [] }, by decide, by decide⟩
  · intro h
    obtain ⟨m, hm, _⟩ := ((matrix_cell_iff twoDiscConfig.disciplines twoDiscConfig.competencies
        twoDiscConfig.programResults twoDiscConfig.mappings "C1" "P1" "A02"
        (by decide) (by decide) (by decide) (by decide)).1).mp h
    rw [show pyLookup twoDiscConfig.mappings "A02" = none from by decide] at hm
    cases hm

theorem wpUpdateById_found (srv : WpServer) (pid : Nat) (pd : PostData)
    (h : (srv.pages.filter (fun p => p.id == pid)).isEmpty = false) :
    wpUpdateById srv pid pd
      = ({ srv with
            pages := srv.pages.map (fun p => if p.id == pid then applyPostData p pd else p) },
         200,
         ((srv.pages.map (fun p => if p.id == pid then applyPostData p pd else p)).find?
            (fun p => p.id == pid)).map pageLink) := by
  unfold wpUpdateById
  rw [h]
  rfl

/-- Claim C8: in a publish call given a slug and no page id, when the
remote slug query returns a non-empty list the engine updates the page
whose id is the first element of that list and issues no create (the
page collection keeps its size); a create is issued only when the
returned list is empty (the collection grows by one). -/
theorem slug_resolution (srv : WpServer) (content s : String) (data : Option ExtraData)
    (hs : s ≠ "") :
    (∀ pg, (wpQueryBySlug srv s).head? = some pg →
        (updateWordpressPage srv content none (some s) data).requests
            = [WpRequest.queryBySlug s, WpRequest.updateById pg.id]
        ∧ (updateWordpressPage srv content none (some s) data).status = PubStatus.updated
        ∧ (updateWordpressPage srv content none (some s) data).server.pages.length
            = srv.pages.length)
    ∧ (wpQueryBySlug srv s = [] →
        (updateWordpressPage srv content none (some s) data).requests
            = [WpRequest.queryBySlug s, WpRequest.create]
        ∧ (updateWordpressPage srv content none (some s) data).status = PubStatus.created
        ∧ (updateWordpressPage srv content none (some s) data).server.pages.length
            = srv.pages.length + 1) := by
  have hstr : truthyStr (some s) = true := by simp [truthyStr, hs]
  constructor
  · intro pg hpg
    have hpgmem : pg ∈ srv.pages := by
      have h1 : pg ∈ wpQueryBySlug srv s := by
        cases hq : wpQueryBySlug srv s with
        | nil => rw [hq] at hpg; cases hpg
        | cons x t =>
            rw [hq] at hpg
            exact (by simpa using hpg) ▸ List.mem_cons_self x t
      exact List.mem_of_mem_filter h1
    obtain ⟨t, hq⟩ : ∃ t, wpQueryBySlug srv s = pg :: t := by
      cases hql : wpQueryBySlug srv s with
      | nil => rw [hql] at hpg; cases hpg
      | cons x tt =>
          rw [hql] at hpg
          have hx : x = pg := by simpa using hpg
          exact ⟨tt, by rw [← hx]⟩
    have hmemf : pg ∈ srv.pages.filter (fun p => p.id == pg.id) :=
      List.mem_filter.mpr ⟨hpgmem, by simp⟩
    have hne : (srv.pages.filter (fun p => p.id == pg.id)).isEmpty = false := by
      cases hfe : srv.pages.filter (fun p => p.id == pg.id) with
      | nil => rw [hfe] at hmemf; cases hmemf
      | cons a tt => rfl
    have hupd := wpUpdateById_found srv pg.id (buildPostData content data) hne
    have hres : updateWordpressPage srv content none (some s) data
        = { server := (wpUpdateById srv pg.id (buildPostData content data)).1
            success := true
            link := (wpUpdateById srv pg.id (buildPostData content data)).2.2
            message := "updated_existing"
            status := PubStatus.updated
            requests := [WpRequest.queryBySlug s, WpRequest.updateById pg.id] } := by
      unfold updateWordpressPage
      simp only [truthyNat, hstr, Option.getD_some]
      simp only [hq, List.head?]
      rw [hupd]
      simp
    rw [hres]
    refine ⟨rfl, rfl, ?_⟩
    rw [hupd]
    simp
  · intro hq
    have hres : updateWordpressPage srv content none (some s) data
        = { server := (wpCreate srv (buildPostData content data)).1
            success := true
            link := (wpCreate srv (buildPostData content data)).2.2
            message := "created"
            status := PubStatus.created
            requests := [WpRequest.queryBySlug s, WpRequest.create] } := by
      unfold updateWordpressPage
      simp only [truthyNat, hstr, Option.getD_some]
      simp only [hq, List.head?]
      simp [wpCreate]
    rw [hres]
    refine ⟨rfl, rfl, ?_⟩
    simp [wpCreate]

/-- A concrete one-page server for the C8 witness. -/
def onePageSrv : WpServer :=
  { pages := [{ id := 5, slug := "sl", content := "c", title := "t", parent := 0 }]
    nextId := 6 }

/-- Witness for C8: on the one-page server a matching slug updates page
5 with no create, and a missing slug issues a create. -/
theorem slug_resolution_witness :
    ((updateWordpressPage onePageSrv "body" none (some "sl") none).requests
        = [WpRequest.queryBySlug "sl", WpRequest.updateById 5])
    ∧ ((updateWordpressPage onePageSrv "body" none (some "other") none).requests
        = [WpRequest.queryBySlug "other", WpRequest.create]) :=
  ⟨((slug_resolution onePageSrv "body" "sl" none (by decide)).1
      { id := 5, slug := "sl", content := "c", title := "t", parent := 0 } (by decide)).1,
   ((slug_resolution onePageSrv "body" "other" none (by decide)).2 (by decide)).1⟩

/-- The page the first publish call creates. -/
def createdPage (srv : WpServer) (content title s : String) (parent : Nat) : WpPage :=
  ⟨srv.nextId, s, content, title, parent⟩

/-- The remote state after the first publish call creates its page. -/
def serverAfterCreate (srv : WpServer) (content title s : String) (parent : Nat) : WpServer :=
  ⟨srv.pages ++ [createdPage srv content title s parent], srv.nextId + 1⟩

/-- Claim C1: for any content and identity hint carrying a slug and no
pinned remote id, against a remote holding no page with that slug (and
a fresh next id), publishing twice with identical arguments yields
exactly one remote page with that slug: the first call creates it, the
second locates it by the slug lookup and updates it (status created
then updated), and the second call issues no create request. -/
theorem publish_idempotent (srv : WpServer) (content title s : String) (parent : Nat)
    (hs : s ≠ "") (hfresh : countSlug srv s = 0)
    (hfreshId : ∀ p ∈ srv.pages, p.id ≠ srv.nextId) :
    (publishDiscipline srv content title s parent).status = PubStatus.created
    ∧ countSlug (publishDiscipline srv content title s parent).server s = 1
    ∧ (publishDiscipline (publishDiscipline srv content title s parent).server
          content title s parent).status = PubStatus.updated
    ∧ countSlug (publishDiscipline (publishDiscipline srv content title s parent).server
          content title s parent).server s = 1
    ∧ WpRequest.create ∉ (publishDiscipline (publishDiscipline srv content title s parent).server
          content title s parent).requests := by
  have hstr : truthyStr (some s) = true := by simp [truthyStr, hs]
  have hnil : srv.pages.filter (fun p => p.slug == s) = [] :=
    List.length_eq_zero.mp hfresh
  have hnilq : wpQueryBySlug srv s = [] := hnil
  have h1 : publishDiscipline srv content title s parent
      = { server := serverAfterCreate srv content title s parent
          success := true
          link := some (pageLink (createdPage srv content title s parent))
          message := "created"
          status := PubStatus.created
          requests := [WpRequest.queryBySlug s, WpRequest.create] } := by
    unfold publishDiscipline updateWordpressPage
    simp only [truthyNat, hstr, Option.getD_some]
    simp only [hnilq, List.head?]
    simp [wpCreate, buildPostData, publishExtra, serverAfterCreate, createdPage]
  have hq2 : wpQueryBySlug (serverAfterCreate srv content title s parent) s
      = [createdPage srv content title s parent] := by
    simp [wpQueryBySlug, serverAfterCreate, createdPage, List.filter_append, hnil]
  have hidnil : srv.pages.filter (fun p => p.id == srv.nextId) = [] :=
    List.filter_eq_nil_iff.mpr (fun p hp => by simp [hfreshId p hp])
  have hidfilter : (serverAfterCreate srv content title s parent).pages.filter
        (fun p => p.id == srv.nextId) = [createdPage srv content title s parent] := by
    simp [serverAfterCreate, List.filter_append, hidnil, createdPage]
  have hne2 : ((serverAfterCreate srv content title s parent).pages.filter
        (fun p => p.id == srv.nextId)).isEmpty = false := by
    rw [hidfilter]; rfl
  have hmap : (serverAfterCreate srv content title s parent).pages.map
        (fun p => if p.id == srv.nextId then
          applyPostData p (buildPostData content (some (publishExtra title s parent))) else p)
      = (serverAfterCreate srv content title s parent).pages := by
    show (srv.pages ++ [createdPage srv content title s parent]).map _
        = srv.pages ++ [createdPage srv content title s parent]
    rw [List.map_append,
      map_fixed_of_false srv.pages _ (fun p hp => by simp [hfreshId p hp])]
    simp [applyPostData, buildPostData, publishExtra, createdPage]
  have hfind : ((serverAfterCreate srv content title s parent).pages.find?
        (fun p => p.id == srv.nextId)) = some (createdPage srv content title s parent) := by
    show ((srv.pages ++ [createdPage srv content title s parent]).find? _) = _
    rw [find?_append_left_none _ _ _ (fun p hp => by simp [hfreshId p hp])]
    simp [createdPage]
  have hupd2 := wpUpdateById_found (serverAfterCreate srv content title s parent)
      srv.nextId (buildPostData content (some (publishExtra title s parent))) hne2
  rw [hmap, hfind] at hupd2
  have h2 : publishDiscipline (serverAfterCreate srv content title s parent)
        content title s parent
      = { server := serverAfterCreate srv content title s parent
          success := true
          link := some (pageLink (createdPage srv content title s parent))
          message := "updated_existing"
          status := PubStatus.updated
          requests := [WpRequest.queryBySlug s, WpRequest.updateById srv.nextId] } := by
    unfold publishDiscipline updateWordpressPage
    simp only [truthyNat, hstr, Option.getD_some]
    simp only [hq2, List.head?]
    simp only [createdPage]
    rw [hupd2]
    simp [serverAfterCreate, createdPage]
  have hcount1 : countSlug (serverAfterCreate srv content title s parent) s = 1 := by
    simp [countSlug, hq2]
  rw [h1, h2]
  refine ⟨rfl, hcount1, rfl, hcount1, ?_⟩
  simp


/-- Witness for C1: publishing twice to an initially empty remote. -/
theorem publish_idempotent_witness :
    (publishDiscipline { pages := [], nextId := 1 } "body" "T" "intro-to-physics" 7).status
        = PubStatus.created
    ∧ countSlug (publishDiscipline { pages := [], nextId := 1 }
          "body" "T" "intro-to-physics" 7).server "intro-to-physics" = 1
    ∧ (publishDiscipline (publishDiscipline { pages := [], nextId := 1 }
          "body" "T" "intro-to-physics" 7).server "body" "T" "intro-to-physics" 7).status
        = PubStatus.updated
    ∧ countSlug (publishDiscipline (publishDiscipline { pages := [], nextId := 1 }
          "body" "T" "intro-to-physics" 7).server "body" "T" "intro-to-physics" 7).server
          "intro-to-physics" = 1
    ∧ WpRequest.create ∉ (publishDiscipline (publishDiscipline { pages := [], nextId := 1 }
          "body" "T" "intro-to-physics" 7).server "body" "T" "intro-to-physics" 7).requests :=
  publish_idempotent { pages := [], nextId := 1 } "body" "T" "intro-to-physics" 7
    (by decide) (by decide) (by intro p hp; cases hp)

end Curriculum
